import Mathlib

/-!
# CoAP publish/subscribe client (`client.go`): subscription lifecycle and liveness

A shallow embedding of `client.go`.  The client's fields are an explicit record, the
calls into the CoAP transport (`coap.Dial`, `Conn.Send`, `Conn.Receive`) are recorded in a
`World` next to the client, and what the transport answers is an argument of the operation
that asks for it.  Every operation is modelled as one atomic step; logging is left out,
except `log.Fatalf`, which ends the process.  A run-time panic is an outcome of its own.
-/

namespace CoapPubsub

/-! ## Data model -/

/-- Identity of a `*coap.Conn` handed out by `coap.Dial`. -/
abbrev Conn := Nat

/-- Identity of a `chan string` created by `make(chan string)`. -/
abbrev Chan := Nat

/-- Width of the `uint16` message-ID counter: values live modulo `2^16`. -/
def uint16Mod : Nat := 65536

/-- Message types of the CoAP library (`coap.Confirmable`, ...). -/
inductive COAPType where
  | Confirmable
  | NonConfirmable
  | Acknowledgement
  | Reset
  deriving DecidableEq, Repr

/-- Request codes of the CoAP library used by the client (`coap.GET`, ...). -/
inductive COAPCode where
  | GET
  | POST
  | PUT
  | DELETE
  deriving DecidableEq, Repr

/-- The fields of `coap.Message` the client sets.  `Payload` is the byte slice, written as
the text it was converted from; `ETag` is the value given to `SetOption(coap.ETag, _)`,
absent on a message literal; `Path` is the list of `URIPath` option values, one per path
segment, empty on a message literal. -/
structure Message where
  Typ : COAPType
  Code : COAPCode
  MessageID : Nat
  Payload : String
  ETag : Option String
  Path : List String
  deriving DecidableEq, Repr

/-- `Req.SetOption(coap.ETag, cmd)`. -/
def Message.SetOptionETag (m : Message) (cmd : String) : Message :=
  { m with ETag := some cmd }

/-- The loop `for s[0] == '/' { s = s[1:] }` that opens the CoAP library's `SetPathString`:
leading slashes are dropped; `none` is the index-out-of-range panic of `s[0]` on a string
that is empty or has run out, which happens when the string has nothing but slashes. -/
def stripLeadingSlashes : List Char → Option (List Char)
  | [] => none
  | c :: cs => if c = '/' then stripLeadingSlashes cs else some (c :: cs)

/-- The call `strings.Split(s, "/")`: the pieces of `s` between slashes, one piece more than
there are slashes. -/
def splitSlash : List Char → List (List Char)
  | [] => [[]]
  | c :: cs =>
      if c = '/' then [] :: splitSlash cs
      else
        match splitSlash cs with
        | [] => [[c]]
        | seg :: rest => (c :: seg) :: rest

/-- The call `strings.Join(segs, "/")`. -/
def joinSlash : List (List Char) → List Char
  | [] => []
  | [seg] => seg
  | seg :: next :: rest => seg ++ '/' :: joinSlash (next :: rest)

/-- `Req.SetPathString(topic)` of the CoAP library: drop the leading slashes of the topic,
then store the pieces between the remaining slashes as the `URIPath` options;
`none` when the call panics, on a topic that is empty or made of slashes only. -/
def Message.SetPathString (m : Message) (topic : String) : Option Message :=
  match stripLeadingSlashes topic.data with
  | none => none
  | some s => some { m with Path := (splitSlash s).map String.mk }

/-- `m.PathString()` of the CoAP library: the path segments joined by slashes. -/
def Message.PathString (m : Message) : String :=
  String.mk (joinSlash (m.Path.map String.data))

/-- How a call ends: it returns a value, or it panics at run time. -/
inductive Outcome (α : Type) where
  | done (val : α)
  | panic
  deriving DecidableEq, Repr

/-- The record `subConnection`: a delivery channel and the connection it is fed from. -/
structure subConnection where
  channel : Chan
  clientCon : Conn
  deriving DecidableEq, Repr

/-- The Go map `map[string]subConnection`, as an association list.  The order of the list
stands for the order in which `range` happens to visit the map. -/
abbrev SubList := List (String × subConnection)

/-- Map read `c.subList[topic]` with the comma-ok form: `none` when the key is absent. -/
def SubList.get (m : SubList) (topic : String) : Option subConnection :=
  match m with
  | [] => none
  | (k, v) :: rest => if k = topic then some v else SubList.get rest topic

/-- Map write `c.subList[topic] = v`: overwrite the entry of an existing key, else add one. -/
def SubList.set (m : SubList) (topic : String) (v : subConnection) : SubList :=
  match m with
  | [] => [(topic, v)]
  | (k, w) :: rest =>
      if k = topic then (k, v) :: rest else (k, w) :: SubList.set rest topic v

/-- The record `CoapPubsubClient`; `msgIndex` is a `uint16`. -/
structure CoapPubsubClient where
  msgIndex : Nat
  serAddr : String
  subList : SubList
  deriving DecidableEq, Repr

/-- One recorded call of `conn.Send(msg)`: the connection, the message and the error the
transport returned (which every caller in `client.go` discards). -/
structure SendRecord where
  conn : Conn
  msg : Message
  err : Option String
  deriving DecidableEq, Repr

/-- One recorded `go c.waitSubResponse(conn, ch, topic)`. -/
structure LoopStart where
  conn : Conn
  ch : Chan
  topic : String
  deriving DecidableEq, Repr

/-- The client together with the record of what it did to the outside: the addresses
dialed, the sends attempted, the delivery loops started and the number of channels made
(channel `k` is the `k`-th one made).  All lists are oldest first. -/
structure World where
  client : CoapPubsubClient
  dialed : List String
  sent : List SendRecord
  loops : List LoopStart
  chans : Nat
  deriving DecidableEq, Repr

/-- What `coap.Dial("udp", addr)` answers: a connection, or an error. -/
inductive DialResult where
  | ok (conn : Conn)
  | failed (err : String)
  deriving DecidableEq, Repr

/-- The transport as seen by one operation: the answer `coap.Dial` gives if it is called,
and the error (if any) a `Send` on each connection returns. -/
structure Env where
  dial : DialResult
  sendErr : Conn → Option String

/-! ## Message-ID allocator -/

/-- `getMsgID`: `c.msgIndex = c.msgIndex + 1; return c.msgIndex` on a `uint16`. -/
def getMsgID (c : CoapPubsubClient) : Nat × CoapPubsubClient :=
  let next := (c.msgIndex + 1) % uint16Mod
  (next, { c with msgIndex := next })

/-- The values returned by `n` consecutive calls of `getMsgID`, first call first. -/
def allocations : Nat → CoapPubsubClient → List Nat
  | 0, _ => []
  | n + 1, c => (getMsgID c).1 :: allocations n (getMsgID c).2

/-! ## Sending a subscription request -/

/-- `conn.Send(msg)`: the attempt is recorded with the error the transport returns. -/
def connSend (env : Env) (conn : Conn) (msg : Message) (w : World) : Option String × World :=
  (env.sendErr conn, { w with sent := w.sent ++ [⟨conn, msg, env.sendErr conn⟩] })

/-- The request built at the top of `sendPubsubReq`, given the allocated message ID;
`none` when `SetPathString` panics. -/
def pubsubReq (cmd topic : String) (msgID : Nat) : Option Message :=
  (Message.SetOptionETag
    { Typ := .Confirmable, Code := .GET, MessageID := msgID, Payload := "",
      ETag := none, Path := [] } cmd).SetPathString topic

/-- `sendPubsubReq(cmd, topic)`: allocate the message ID, build the request (a panic of
`SetPathString` ends the call there, before the dial), dial; on a dial error return
`(nil, "Dial failed")` (here `.error "Dial failed"`), otherwise send the request,
discarding what `Send` returns, and return the connection with a nil error. -/
def sendPubsubReq (env : Env) (cmd topic : String) (w : World) :
    Outcome (Except String Conn) × World :=
  let (msgID, c1) := getMsgID w.client
  let w0 : World := { w with client := c1 }
  match pubsubReq cmd topic msgID with
  | none => (.panic, w0)
  | some Req =>
      let w1 : World := { w0 with dialed := w0.dialed ++ [c1.serAddr] }
      match env.dial with
      | .failed _ => (.done (.error "Dial failed"), w1)
      | .ok conn =>
          let (_, w2) := connSend env conn Req w1
          (.done (.ok conn), w2)

/-! ## Subscribing and unsubscribing -/

/-- `AddSub(topic)`: the channel of an existing entry, or else send `ADDSUB`, make a
channel, start the delivery loop and register the entry.  The value returned is the pair
`(chan string, error)` with `none` for nil; a panic in `sendPubsubReq` ends the call. -/
def AddSub (env : Env) (topic : String) (w : World) :
    Outcome (Option Chan × Option String) × World :=
  match w.client.subList.get topic with
  | some val => (.done (some val.channel, none), w)
  | none =>
      match sendPubsubReq env "ADDSUB" topic w with
      | (.panic, w1) => (.panic, w1)
      | (.done (.error err), w1) => (.done (none, some err), w1)
      | (.done (.ok conn), w1) =>
          let subChan : Chan := w1.chans
          let w2 : World := { w1 with chans := w1.chans + 1 }
          let w3 : World := { w2 with loops := w2.loops ++ [⟨conn, subChan, topic⟩] }
          let clientConn : subConnection := { channel := subChan, clientCon := conn }
          let w4 : World :=
            { w3 with client := { w3.client with
                subList := w3.client.subList.set topic clientConn } }
          (.done (some subChan, none), w4)

/-- `RemoveSub(topic)`: nil when the topic has no entry, else send `REMSUB` and return the
error of `sendPubsubReq`; a panic in `sendPubsubReq` ends the call. -/
def RemoveSub (env : Env) (topic : String) (w : World) : Outcome (Option String) × World :=
  match w.client.subList.get topic with
  | none => (.done none, w)
  | some _ =>
      match sendPubsubReq env "REMSUB" topic w with
      | (.panic, w1) => (.panic, w1)
      | (.done (.error err), w1) => (.done (some err), w1)
      | (.done (.ok _), w1) => (.done none, w1)

/-! ## Delivery loop -/

/-- What one call of `conn.Receive()` returns: the pair `(*coap.Message, error)`, `none`
for nil on either side. -/
structure RecvResult where
  msg : Option Message
  err : Option String
  deriving DecidableEq, Repr

/-- Where a delivery loop stands.  `active`: `keepLoop` is true and the loop is blocked in
`conn.Receive()`; `terminated`: `keepLoop` was set to false and the loop has returned;
`fatal`: `log.Fatalf` was called, ending the process; `nilDeref`: `rv.Payload` was
evaluated with `rv == nil`, a run-time panic. -/
inductive LoopStatus where
  | active
  | terminated
  | fatal
  | nilDeref
  deriving DecidableEq, Repr

/-- The local variables `rv` and `err` of `waitSubResponse`, where the loop stands, and
the strings sent so far on the channel `ch`, oldest first. -/
structure LoopState where
  rv : Option Message
  err : Option String
  status : LoopStatus
  forwarded : List String
  deriving DecidableEq, Repr

/-- The top of an iteration, up to the call of `Receive`:
`if rv != nil { if err != nil { log.Fatalf(..) }; log.Printf(..) }`. -/
def loopHead (st : LoopState) : LoopState :=
  match st.status with
  | .active =>
      match st.rv, st.err with
      | some _, some _ => { st with status := .fatal }
      | _, _ => st
  | _ => st

/-- The liveness check that ends an iteration, made on the client as it is after the pause:
`if _, exist := c.subList[topic]; !exist { keepLoop = false }`. -/
def livenessCheck (topic : String) (c : CoapPubsubClient) (st : LoopState) : LoopState :=
  match c.subList.get topic with
  | none => { st with status := .terminated }
  | some _ => st

/-- The rest of an iteration, from the return of `Receive` with `r`:
`rv, err = r; if err == nil { ch <- string(rv.Payload) }`, the pause and the liveness
check on the client `c`. -/
def loopBody (topic : String) (r : RecvResult) (c : CoapPubsubClient) (st : LoopState) :
    LoopState :=
  let st1 : LoopState := { st with rv := r.msg, err := r.err }
  match r.err with
  | some _ => livenessCheck topic c st1
  | none =>
      match r.msg with
      | none => { st1 with status := .nilDeref }
      | some m => livenessCheck topic c { st1 with forwarded := st1.forwarded ++ [m.Payload] }

/-- One return of `Receive`, handled by a loop blocked in it: the rest of the iteration and
the top of the next one.  A loop that is not active receives nothing. -/
def loopStep (topic : String) (st : LoopState) (i : RecvResult × CoapPubsubClient) :
    LoopState :=
  match st.status with
  | .active => loopHead (loopBody topic i.1 i.2 st)
  | _ => st

/-- The loop on entry: `rv` and `err` nil, `keepLoop` true, run up to its first `Receive`. -/
def loopStart : LoopState :=
  loopHead { rv := none, err := none, status := .active, forwarded := [] }

/-- The loop `waitSubResponse(conn, ch, topic)` run on the results `conn.Receive()` returns,
each paired with the client as it is at the liveness check that follows it. -/
def waitSubResponse (topic : String) (ins : List (RecvResult × CoapPubsubClient)) :
    LoopState :=
  ins.foldl (loopStep topic) loopStart

/-- The string a receive puts on the channel: the payload of the message when the error
is nil, nothing when the receive failed. -/
def deliveredText (r : RecvResult) : Option String :=
  match r.err with
  | some _ => none
  | none => r.msg.map Message.Payload

/-! ## Heartbeat -/

/-- The request built at the top of `heartBeat`, given the allocated message ID. -/
def heartBeatReq (msgID : Nat) : Message :=
  Message.SetOptionETag
    { Typ := .Confirmable, Code := .GET, MessageID := msgID, Payload := "Heart beat msg.",
      ETag := none, Path := [] } "HB"

/-- The part of `heartBeat` before its endless loop: allocate a message ID and build the
request. -/
def heartBeatStart (w : World) : Message × World :=
  let (msgID, c1) := getMsgID w.client
  (heartBeatReq msgID, { w with client := c1 })

/-- One pass of the endless loop of `heartBeat`, up to the pause:
`for k, conn := range c.subList { conn.clientCon.Send(hbReq) }`. -/
def heartBeatTick (env : Env) (hbReq : Message) (w : World) : World :=
  w.client.subList.foldl (fun acc e => (connSend env e.2.clientCon hbReq acc).2) w

/-- The passes of the endless loop, one per element of `envs`, with the same request. -/
def heartBeatTicks (hbReq : Message) : List Env → World → World
  | [], w => w
  | env :: envs, w => heartBeatTicks hbReq envs (heartBeatTick env hbReq w)

/-- The function `heartBeat` run for as many passes as `envs` has elements, with nothing
else touching the client in between. -/
def heartBeat (envs : List Env) (w : World) : World :=
  let (hbReq, w1) := heartBeatStart w
  heartBeatTicks hbReq envs w1

/-! ## Sample inputs -/

/-- A transport whose dial returns connection `9` and whose sends all succeed. -/
def envUp : Env := { dial := .ok 9, sendErr := fun _ => none }

/-- A transport whose dial fails and whose sends on connection `7` fail. -/
def envDown : Env :=
  { dial := .failed "no route to host",
    sendErr := fun k => if k = 7 then some "write: connection refused" else none }

/-- A client subscribed to `sensors/temp` and `sensors/hum`, counter one below the wrap. -/
def wSample : World :=
  { client :=
      { msgIndex := 65535, serAddr := "10.0.0.1:5683",
        subList := [("sensors/temp", ⟨0, 7⟩), ("sensors/hum", ⟨1, 8⟩)] },
    dialed := ["10.0.0.1:5683", "10.0.0.1:5683"], sent := [],
    loops := [⟨7, 0, "sensors/temp"⟩, ⟨8, 1, "sensors/hum"⟩], chans := 2 }

/-- A publication carrying `21.5`. -/
def msgSample : Message :=
  { Typ := .Acknowledgement, Code := .GET, MessageID := 17, Payload := "21.5",
    ETag := none, Path := [] }

/-! ## Lemmas on the registry and the allocator -/

theorem SubList.get_set_self (m : SubList) (topic : String) (v : subConnection) :
    (SubList.set m topic v).get topic = some v := by
  induction m with
  | nil => simp [SubList.set, SubList.get]
  | cons e rest ih =>
      obtain ⟨k, x⟩ := e
      by_cases hk : k = topic
      · simp [SubList.set, SubList.get, hk]
      · simp [SubList.set, SubList.get, hk, ih]

theorem SubList.get_set_other (m : SubList) (topic other : String) (v : subConnection)
    (h : other ≠ topic) : (SubList.set m topic v).get other = m.get other := by
  induction m with
  | nil =>
      have h2 : ¬ topic = other := fun e => h e.symm
      simp [SubList.set, SubList.get, h2]
  | cons e rest ih =>
      obtain ⟨k, x⟩ := e
      by_cases hk : k = topic
      · have h2 : ¬ topic = other := fun e => h e.symm
        simp [SubList.set, SubList.get, hk, h2]
      · by_cases ho : k = other
        · subst ho
          simp [SubList.set, SubList.get, h]
        · simp [SubList.set, SubList.get, hk, ho, ih]

theorem allocations_eq_map (n : Nat) (c : CoapPubsubClient) :
    allocations n c = (List.range n).map (fun k => (c.msgIndex + 1 + k) % uint16Mod) := by
  induction n generalizing c with
  | zero => simp [allocations]
  | succ n ih =>
      rw [allocations, ih, List.range_succ_eq_map]
      simp only [getMsgID, List.map_cons, List.map_map, Nat.add_zero]
      refine congrArg _ (List.map_congr_left ?_)
      intro k _
      simp only [Function.comp, uint16Mod]
      omega

theorem allocations_nodup (n : Nat) (c : CoapPubsubClient) (h : n ≤ uint16Mod) :
    (allocations n c).Nodup := by
  rw [allocations_eq_map]
  refine List.Nodup.map_on ?_ (List.nodup_range n)
  intro i hi j hj hij
  have hi2 : i < uint16Mod := lt_of_lt_of_le (List.mem_range.mp hi) h
  have hj2 : j < uint16Mod := lt_of_lt_of_le (List.mem_range.mp hj) h
  simp only [uint16Mod] at hij hi2 hj2
  omega

/-! ## The allocator -/

/-- C5: `getMsgID` returns the previous counter plus one modulo `2^16`, stores that value as
the new counter and touches nothing else; so for every starting counter and every
`N ≤ 65536`, `N` consecutive allocations return `N` pairwise distinct values. -/
theorem getMsgID_wraps_without_repeat (c : CoapPubsubClient) :
    (getMsgID c).1 = (c.msgIndex + 1) % 2 ^ 16 ∧
    (getMsgID c).2 = { c with msgIndex := (c.msgIndex + 1) % 2 ^ 16 } ∧
    ∀ N : Nat, N ≤ 65536 →
      (allocations N c).length = N ∧ (allocations N c).Nodup := by
  refine ⟨rfl, rfl, ?_⟩
  intro N hN
  refine ⟨?_, allocations_nodup N c hN⟩
  rw [allocations_eq_map]
  simp

theorem getMsgID_wraps_without_repeat_witness :
    (3 : Nat) ≤ 65536 ∧ allocations 3 wSample.client = [0, 1, 2] ∧
    (allocations 3 wSample.client).length = 3 ∧ (allocations 3 wSample.client).Nodup :=
  ⟨by decide, by decide,
    (getMsgID_wraps_without_repeat wSample.client).2.2 3 (by decide)⟩

/-! ## The request path -/

theorem splitSlash_ne_nil (l : List Char) : splitSlash l ≠ [] := by
  cases l with
  | nil => simp [splitSlash]
  | cons c cs =>
      by_cases hc : c = '/'
      · simp [splitSlash, hc]
      · cases hs : splitSlash cs <;> simp [splitSlash, hc, hs]

/-- Joining the pieces of a split gives the string back. -/
theorem joinSlash_splitSlash (l : List Char) : joinSlash (splitSlash l) = l := by
  induction l with
  | nil => rfl
  | cons c cs ih =>
      cases hs : splitSlash cs with
      | nil => exact absurd hs (splitSlash_ne_nil cs)
      | cons seg rest =>
          rw [hs] at ih
          by_cases hc : c = '/'
          · simp [splitSlash, hc, hs, joinSlash, ih]
          · cases rest with
            | nil =>
                simp only [joinSlash] at ih
                simp [splitSlash, hc, hs, joinSlash, ih]
            | cons next more =>
                simp only [joinSlash] at ih
                simp [splitSlash, hc, hs, joinSlash, ih]

theorem stripLeadingSlashes_eq_dropWhile (l s : List Char)
    (h : stripLeadingSlashes l = some s) :
    s = l.dropWhile (fun c => decide (c = '/')) := by
  induction l with
  | nil => simp [stripLeadingSlashes] at h
  | cons c cs ih =>
      by_cases hc : c = '/'
      · simp only [stripLeadingSlashes, hc, if_true] at h
        simp [List.dropWhile, hc, ih h]
      · simp only [stripLeadingSlashes, hc, if_false, Option.some.injEq] at h
        simp [List.dropWhile, hc, ← h]

theorem stripLeadingSlashes_of_mem (l : List Char) (h : ∃ c ∈ l, c ≠ '/') :
    ∃ s, stripLeadingSlashes l = some s := by
  induction l with
  | nil =>
      obtain ⟨c, hc, _⟩ := h
      simp at hc
  | cons c cs ih =>
      by_cases hc : c = '/'
      · obtain ⟨d, hd, hne⟩ := h
        rcases List.mem_cons.mp hd with h1 | h2
        · exact absurd (h1 ▸ hc) hne
        · obtain ⟨s, hs⟩ := ih ⟨d, h2, hne⟩
          exact ⟨s, by simp [stripLeadingSlashes, hc, hs]⟩
      · exact ⟨c :: cs, by simp [stripLeadingSlashes, hc]⟩

/-- On a topic that has a character other than the slash the request is built: it is a
confirmable `GET` with the given message ID and tag and an empty payload, and its path
reads as the topic without its leading slashes. -/
theorem pubsubReq_of_topic (cmd topic : String) (msgID : Nat)
    (ht : ∃ c ∈ topic.data, c ≠ '/') :
    ∃ m : Message, pubsubReq cmd topic msgID = some m ∧
      m.Typ = .Confirmable ∧ m.Code = .GET ∧ m.MessageID = msgID ∧ m.Payload = "" ∧
      m.ETag = some cmd ∧
      m.PathString = String.mk (topic.data.dropWhile (fun c => decide (c = '/'))) := by
  obtain ⟨s, hs⟩ := stripLeadingSlashes_of_mem topic.data ht
  refine ⟨{ Typ := .Confirmable, Code := .GET, MessageID := msgID, Payload := "",
            ETag := some cmd, Path := (splitSlash s).map String.mk },
    by simp only [pubsubReq, Message.SetPathString, Message.SetOptionETag, hs],
    rfl, rfl, rfl, rfl, rfl, ?_⟩
  have hd := stripLeadingSlashes_eq_dropWhile topic.data s hs
  simp only [Message.PathString, List.map_map]
  have hid : (String.data ∘ String.mk) = (id : List Char → List Char) := rfl
  rw [hid, List.map_id, joinSlash_splitSlash, hd]

/-! ## Subscribing and unsubscribing -/

/-- C3: `RemoveSub` on a topic that has no entry returns nil and leaves everything as it
was: no dial, no send, no message ID allocated, the client unchanged. -/
theorem RemoveSub_unsubscribed_is_noop (env : Env) (topic : String) (w : World)
    (h : w.client.subList.get topic = none) :
    RemoveSub env topic w = (.done none, w) := by
  simp [RemoveSub, h]

theorem RemoveSub_unsubscribed_is_noop_witness :
    wSample.client.subList.get "sensors/co2" = none ∧
    RemoveSub envUp "sensors/co2" wSample = (.done none, wSample) :=
  ⟨by decide, RemoveSub_unsubscribed_is_noop envUp "sensors/co2" wSample (by decide)⟩

/-- C2, as stated, fails: with a dial that succeeds, `AddSub("")` on a client that has no
entry for the empty topic panics in `SetPathString`: it returns no channel and sends no
request; and the request of `AddSub("/sensors/co2")` carries the path `sensors/co2`, the
topic without its leading slash. -/
theorem AddSub_empty_topic_panics :
    envUp.dial = .ok 9 ∧
    wSample.client.subList.get "" = none ∧
    (AddSub envUp "" wSample).1 = .panic ∧
    (AddSub envUp "" wSample).2.sent = [] ∧
    wSample.client.subList.get "/sensors/co2" = none ∧
    (AddSub envUp "/sensors/co2" wSample).2.sent.map (fun r => r.msg.PathString) =
      ["sensors/co2"] := by
  decide

/-- C2, amended: on a topic that has a character other than the slash and no entry, and
with a dial that succeeds, `AddSub` followed at once by a second `AddSub` of the same topic
returns the same channel both times with a nil error; the first call sends exactly one
request, tagged `ADDSUB`, whose path is the topic without its leading slashes, and the
second call changes nothing at all: no send, no dial, no message ID, no loop, the registry
as the first call left it. -/
theorem AddSub_twice_same_channel_one_request (env1 env2 : Env) (topic : String) (conn : Conn)
    (w : World) (hd : env1.dial = .ok conn) (h : w.client.subList.get topic = none)
    (ht : ∃ c ∈ topic.data, c ≠ '/') :
    ∃ m : Message,
      pubsubReq "ADDSUB" topic ((w.client.msgIndex + 1) % 2 ^ 16) = some m ∧
      m.ETag = some "ADDSUB" ∧
      m.PathString = String.mk (topic.data.dropWhile (fun c => decide (c = '/'))) ∧
      (AddSub env1 topic w).1 = .done (some w.chans, none) ∧
      (AddSub env2 topic (AddSub env1 topic w).2).1 = .done (some w.chans, none) ∧
      (AddSub env2 topic (AddSub env1 topic w).2).2 = (AddSub env1 topic w).2 ∧
      (AddSub env2 topic (AddSub env1 topic w).2).2.sent =
        w.sent ++ [⟨conn, m, env1.sendErr conn⟩] := by
  obtain ⟨m, hm, _, _, _, _, hetag, hpath⟩ :=
    pubsubReq_of_topic "ADDSUB" topic ((w.client.msgIndex + 1) % uint16Mod) ht
  have h1 : AddSub env1 topic w =
      (.done (some w.chans, none),
        { client := { msgIndex := (w.client.msgIndex + 1) % uint16Mod,
                      serAddr := w.client.serAddr,
                      subList := w.client.subList.set topic ⟨w.chans, conn⟩ },
          dialed := w.dialed ++ [w.client.serAddr],
          sent := w.sent ++ [⟨conn, m, env1.sendErr conn⟩],
          loops := w.loops ++ [⟨conn, w.chans, topic⟩],
          chans := w.chans + 1 }) := by
    simp [AddSub, h, sendPubsubReq, hd, getMsgID, connSend, hm]
  have h2 : AddSub env2 topic (AddSub env1 topic w).2 =
      (.done (some w.chans, none), (AddSub env1 topic w).2) := by
    rw [h1]
    simp [AddSub, SubList.get_set_self]
  refine ⟨m, hm, hetag, hpath, ?_, ?_, ?_, ?_⟩
  · rw [h1]
  · rw [h2]
  · rw [h2]
  · rw [h2, h1]

theorem AddSub_twice_same_channel_one_request_witness :
    envUp.dial = .ok 9 ∧ wSample.client.subList.get "sensors/co2" = none ∧
    ∃ m : Message,
      pubsubReq "ADDSUB" "sensors/co2" ((65535 + 1) % 2 ^ 16) = some m ∧
      m.ETag = some "ADDSUB" ∧
      m.PathString =
        String.mk ("sensors/co2".data.dropWhile (fun c => decide (c = '/'))) ∧
      (AddSub envUp "sensors/co2" wSample).1 = .done (some 2, none) ∧
      (AddSub envDown "sensors/co2" (AddSub envUp "sensors/co2" wSample).2).1 =
        .done (some 2, none) ∧
      (AddSub envDown "sensors/co2" (AddSub envUp "sensors/co2" wSample).2).2 =
        (AddSub envUp "sensors/co2" wSample).2 ∧
      (AddSub envDown "sensors/co2" (AddSub envUp "sensors/co2" wSample).2).2.sent =
        [] ++ [⟨9, m, none⟩] :=
  ⟨rfl, by decide,
    AddSub_twice_same_channel_one_request envUp envDown "sensors/co2" 9 wSample rfl
      (by decide) ⟨'s', by decide, by decide⟩⟩

/-- The registry after `RemoveSub` is the registry before it, whatever the transport does. -/
theorem RemoveSub_subList (env : Env) (topic : String) (w : World) :
    (RemoveSub env topic w).2.client.subList = w.client.subList := by
  unfold RemoveSub
  cases hg : w.client.subList.get topic with
  | none => rfl
  | some v =>
      cases hm : pubsubReq "REMSUB" topic ((w.client.msgIndex + 1) % uint16Mod) with
      | none => simp [sendPubsubReq, getMsgID, hm]
      | some m =>
          cases hd : env.dial with
          | ok conn => simp [sendPubsubReq, hd, getMsgID, connSend, hm]
          | failed e => simp [sendPubsubReq, hd, getMsgID, hm]

/-- C1: on the client subscribed to `sensors/temp`, with a dial that succeeds,
`RemoveSub("sensors/temp")` returns nil and sends one request tagged `REMSUB` with that
path, but the registry still holds the entry of `sensors/temp`; in general `RemoveSub`
never changes the registry. -/
theorem RemoveSub_leaves_entry_in_registry :
    wSample.client.subList.get "sensors/temp" = some ⟨0, 7⟩ ∧
    (RemoveSub envUp "sensors/temp" wSample).1 = .done none ∧
    (RemoveSub envUp "sensors/temp" wSample).2.sent =
      [⟨9, { Typ := .Confirmable, Code := .GET, MessageID := 0, Payload := "",
             ETag := some "REMSUB", Path := ["sensors", "temp"] }, none⟩] ∧
    ((RemoveSub envUp "sensors/temp" wSample).2.sent.map (fun r => r.msg.PathString)) =
      ["sensors/temp"] ∧
    (RemoveSub envUp "sensors/temp" wSample).2.client.subList.get "sensors/temp" =
      some ⟨0, 7⟩ ∧
    ∀ (env : Env) (topic : String) (w : World),
      (RemoveSub env topic w).2.client.subList.get topic = w.client.subList.get topic := by
  refine ⟨by decide, by decide, by decide, by decide, by decide, ?_⟩
  intro env topic w
  rw [RemoveSub_subList]

/-! ## Heartbeat -/

theorem heartBeatTick_fold (env : Env) (hbReq : Message) (l : SubList) (w : World) :
    l.foldl (fun acc e => (connSend env e.2.clientCon hbReq acc).2) w =
      { w with sent := w.sent ++
          l.map (fun e => ⟨e.2.clientCon, hbReq, env.sendErr e.2.clientCon⟩) } := by
  induction l generalizing w with
  | nil => simp
  | cons e rest ih =>
      rw [List.foldl_cons, ih]
      simp [connSend]

theorem heartBeatTick_sends_fold (env : Env) (hbReq : Message) (w : World) :
    (heartBeatTick env hbReq w).sent =
      w.sent ++ w.client.subList.map
        (fun e => ⟨e.2.clientCon, hbReq, env.sendErr e.2.clientCon⟩) ∧
    (heartBeatTick env hbReq w).sent.length = w.sent.length + w.client.subList.length ∧
    ((heartBeatTick env hbReq w).sent.drop w.sent.length).map SendRecord.conn =
      w.client.subList.map (fun e => e.2.clientCon) ∧
    (heartBeatTick env hbReq w).client = w.client ∧
    (heartBeatTick env hbReq w).dialed = w.dialed ∧
    (heartBeatTick env hbReq w).loops = w.loops ∧
    (heartBeatTick env hbReq w).chans = w.chans := by
  unfold heartBeatTick
  rw [heartBeatTick_fold]
  refine ⟨rfl, by simp, ?_, rfl, rfl, rfl, rfl⟩
  simp [List.map_map, Function.comp_def]

/-- C6: one heartbeat tick over a registry of `K` entries attempts exactly `K` sends, one on
the connection of each entry in the order the entries are visited, whatever errors the
sends return (a send that fails is recorded like the others and the loop goes on); the
tick changes neither the registry nor anything else of the client. -/
theorem heartBeatTick_sends_once_per_entry (env : Env) (hbReq : Message) (w : World) :
    (heartBeatTick env hbReq w).sent =
      w.sent ++ w.client.subList.map
        (fun e => ⟨e.2.clientCon, hbReq, env.sendErr e.2.clientCon⟩) ∧
    (heartBeatTick env hbReq w).sent.length = w.sent.length + w.client.subList.length ∧
    ((heartBeatTick env hbReq w).sent.drop w.sent.length).map SendRecord.conn =
      w.client.subList.map (fun e => e.2.clientCon) ∧
    (heartBeatTick env hbReq w).client = w.client ∧
    (heartBeatTick env hbReq w).dialed = w.dialed ∧
    (heartBeatTick env hbReq w).loops = w.loops ∧
    (heartBeatTick env hbReq w).chans = w.chans :=
  heartBeatTick_sends_fold env hbReq w

theorem heartBeatTicks_spec (hbReq : Message) (envs : List Env) (w : World) :
    (heartBeatTicks hbReq envs w).client = w.client ∧
    ∃ suffix : List SendRecord,
      (heartBeatTicks hbReq envs w).sent = w.sent ++ suffix ∧
      suffix.length = envs.length * w.client.subList.length ∧
      ∀ r ∈ suffix, r.msg = hbReq := by
  induction envs generalizing w with
  | nil => exact ⟨rfl, [], by simp [heartBeatTicks]⟩
  | cons env rest ih =>
      obtain ⟨hc, suf, hs, hl, hm⟩ := ih (heartBeatTick env hbReq w)
      obtain ⟨ts, _, _, tc, _, _, _⟩ := heartBeatTick_sends_fold env hbReq w
      refine ⟨by rw [heartBeatTicks, hc, tc], ?_⟩
      refine ⟨w.client.subList.map
          (fun e => ⟨e.2.clientCon, hbReq, env.sendErr e.2.clientCon⟩) ++ suf, ?_, ?_, ?_⟩
      · rw [heartBeatTicks, hs, ts, List.append_assoc]
      · rw [List.length_append, hl, tc, List.length_map, List.length_cons]
        ring
      · intro r hr
        rcases List.mem_append.mp hr with h1 | h2
        · obtain ⟨e, _, rfl⟩ := List.mem_map.mp h1
          rfl
        · exact hm r h2

/-- C9, as stated, fails: on the client subscribed to two topics, whose counter reads
`65535`, the task allocates the ID `0` once; the first tick leaves the counter at `0`
instead of advancing it, and the heartbeats of the second tick carry the ID `0` like those
of the first. -/
theorem heartBeat_second_tick_repeats_id :
    (heartBeatStart wSample).2.client.msgIndex = 0 ∧
    (heartBeatTick envUp (heartBeatStart wSample).1 (heartBeatStart wSample).2).client.msgIndex
      ≠ (0 + 1) % 2 ^ 16 ∧
    (heartBeat [envUp] wSample).sent.map (fun r => r.msg.MessageID) = [0, 0] ∧
    (heartBeat [envUp, envUp] wSample).sent.map (fun r => r.msg.MessageID) = [0, 0, 0, 0] ∧
    (heartBeat [envUp, envUp] wSample).client.msgIndex = 0 := by
  decide

/-- C9, amended: the heartbeat task allocates one message ID when it starts (the counter
advances by one, once) and stamps it on the one request it builds; every tick sends that
same request on every entry and allocates nothing, so after any number of ticks the client
is as the start left it, and all heartbeats of all ticks carry the one message ID. -/
theorem heartBeat_one_id_for_all_ticks (envs : List Env) (w : World) :
    (heartBeatStart w).1 = heartBeatReq ((w.client.msgIndex + 1) % 2 ^ 16) ∧
    (heartBeatStart w).2.client =
      { w.client with msgIndex := (w.client.msgIndex + 1) % 2 ^ 16 } ∧
    (heartBeat envs w).client = (heartBeatStart w).2.client ∧
    ∃ suffix : List SendRecord,
      (heartBeat envs w).sent = w.sent ++ suffix ∧
      suffix.length = envs.length * w.client.subList.length ∧
      ∀ r ∈ suffix, r.msg.MessageID = (w.client.msgIndex + 1) % 2 ^ 16 ∧
        r.msg = (heartBeatStart w).1 := by
  refine ⟨rfl, rfl, ?_⟩
  obtain ⟨hc, suf, hs, hl, hm⟩ :=
    heartBeatTicks_spec (heartBeatStart w).1 envs (heartBeatStart w).2
  refine ⟨hc, suf, hs, hl, ?_⟩
  intro r hr
  rw [hm r hr]
  exact ⟨rfl, rfl⟩

/-! ## Delivery loop -/

theorem waitSubResponse_snoc (topic : String) (ins : List (RecvResult × CoapPubsubClient))
    (i : RecvResult × CoapPubsubClient) :
    waitSubResponse topic (ins ++ [i]) = loopStep topic (waitSubResponse topic ins) i := by
  simp [waitSubResponse, List.foldl_append]

theorem livenessCheck_forwarded (topic : String) (c : CoapPubsubClient) (st : LoopState) :
    (livenessCheck topic c st).forwarded = st.forwarded := by
  unfold livenessCheck
  cases c.subList.get topic <;> rfl

theorem loopHead_forwarded (st : LoopState) : (loopHead st).forwarded = st.forwarded := by
  unfold loopHead
  cases st.status <;> try rfl
  cases st.rv <;> cases st.err <;> rfl

/-- A receive handled by an active loop adds to the channel the text it delivers, if any,
wherever the loop stands afterwards. -/
theorem loopStep_forwarded (topic : String) (st : LoopState)
    (i : RecvResult × CoapPubsubClient) (h : st.status = .active) :
    (loopStep topic st i).forwarded = st.forwarded ++ (deliveredText i.1).toList := by
  obtain ⟨⟨m, e⟩, c⟩ := i
  unfold loopStep
  rw [h]
  simp only [loopHead_forwarded]
  cases e with
  | some e => simp [loopBody, livenessCheck_forwarded, deliveredText]
  | none =>
      cases m with
      | none => simp [loopBody, deliveredText]
      | some m => simp [loopBody, livenessCheck_forwarded, deliveredText]

/-- A loop that is not active stays as it is. -/
theorem loopStep_of_not_active (topic : String) (st : LoopState)
    (i : RecvResult × CoapPubsubClient) (h : st.status ≠ .active) :
    loopStep topic st i = st := by
  unfold loopStep
  cases hs : st.status <;> simp_all

theorem waitSubResponse_forwarded_of_active (topic : String)
    (ins : List (RecvResult × CoapPubsubClient))
    (h : (waitSubResponse topic ins).status = .active) :
    (waitSubResponse topic ins).forwarded = (ins.map Prod.fst).filterMap deliveredText := by
  induction ins using List.reverseRecOn with
  | nil => rfl
  | append_singleton ins i ih =>
      rw [waitSubResponse_snoc] at h ⊢
      by_cases ha : (waitSubResponse topic ins).status = .active
      · rw [loopStep_forwarded topic _ i ha, ih ha]
        simp only [List.map_append, List.map_cons, List.map_nil, List.filterMap_append]
        cases hd : deliveredText i.1 <;> simp [List.filterMap_cons, hd]
      · rw [loopStep_of_not_active topic _ i ha] at h
        exact absurd h ha

theorem filterMap_deliveredText (l : List RecvResult) :
    l.filterMap deliveredText =
      (l.filter (fun r => r.err.isNone)).filterMap (fun r => r.msg.map Message.Payload) := by
  induction l with
  | nil => rfl
  | cons r rest ih =>
      obtain ⟨m, e⟩ := r
      cases e with
      | some e => simp [List.filterMap_cons, deliveredText, ih]
      | none =>
          cases m with
          | none => simp [List.filterMap_cons, deliveredText, ih]
          | some m => simp [List.filterMap_cons, deliveredText, ih]

/-- C8: for every finite sequence of receive results taken by a delivery loop while it is
active (the loop is still active when the last of them arrives), the strings forwarded to
the channel are exactly the payloads, as text, of the receives that returned a nil
error, in receive order; and a receive that returned an error forwards nothing. -/
theorem waitSubResponse_forwards_in_receive_order (topic : String)
    (ins : List (RecvResult × CoapPubsubClient))
    (h : (waitSubResponse topic ins.dropLast).status = .active) :
    (waitSubResponse topic ins).forwarded =
      ((ins.map Prod.fst).filter (fun r => r.err.isNone)).filterMap
        (fun r => r.msg.map Message.Payload) ∧
    ∀ (st : LoopState) (i : RecvResult × CoapPubsubClient),
      st.status = .active → i.1.err ≠ none →
        (loopStep topic st i).forwarded = st.forwarded := by
  constructor
  · rw [← filterMap_deliveredText]
    induction ins using List.reverseRecOn with
    | nil => rfl
    | append_singleton ins i _ =>
        rw [List.dropLast_concat] at h
        rw [waitSubResponse_snoc, loopStep_forwarded topic _ i h,
          waitSubResponse_forwarded_of_active topic ins h]
        simp only [List.map_append, List.map_cons, List.map_nil, List.filterMap_append]
        cases hd : deliveredText i.1 <;> simp [List.filterMap_cons, hd]
  · intro st i hs he
    rw [loopStep_forwarded topic st i hs]
    unfold deliveredText
    cases hi : i.1.err with
    | none => exact absurd hi he
    | some e => simp

theorem waitSubResponse_forwards_in_receive_order_witness :
    (waitSubResponse "sensors/temp"
      [(⟨some msgSample, none⟩, wSample.client), (⟨none, some "timeout"⟩, wSample.client),
        (⟨some { msgSample with Payload := "21.7" }, none⟩, wSample.client)].dropLast).status
      = .active ∧
    (waitSubResponse "sensors/temp"
      [(⟨some msgSample, none⟩, wSample.client), (⟨none, some "timeout"⟩, wSample.client),
        (⟨some { msgSample with Payload := "21.7" }, none⟩, wSample.client)]).forwarded
      = ["21.5", "21.7"] ∧
    (loopStep "sensors/temp" loopStart (⟨none, some "timeout"⟩, wSample.client)).forwarded
      = loopStart.forwarded :=
  ⟨by decide,
    (waitSubResponse_forwards_in_receive_order "sensors/temp"
      [(⟨some msgSample, none⟩, wSample.client), (⟨none, some "timeout"⟩, wSample.client),
        (⟨some { msgSample with Payload := "21.7" }, none⟩, wSample.client)]
      (by decide)).1,
    (waitSubResponse_forwards_in_receive_order "sensors/temp"
      [(⟨some msgSample, none⟩, wSample.client), (⟨none, some "timeout"⟩, wSample.client),
        (⟨some { msgSample with Payload := "21.7" }, none⟩, wSample.client)]
      (by decide)).2 loopStart (⟨none, some "timeout"⟩, wSample.client) (by decide)
      (by decide)⟩

/-- The branch `log.Fatalf` is live code: a receive that returns a message together with an
error sends the loop there at the top of the next iteration. -/
theorem loopStep_message_with_error_is_fatal :
    (waitSubResponse "sensors/temp"
      [(⟨some msgSample, some "short read"⟩, wSample.client)]).status = .fatal := by
  decide

/-- The exit of the loop is live code: a liveness check on a client without the topic
terminates the loop. -/
theorem loopStep_absent_topic_terminates :
    (waitSubResponse "sensors/temp"
      [(⟨some msgSample, none⟩, { wSample.client with subList := [] })]).status
      = .terminated := by
  decide

/-- The liveness check reads the registry only, and `RemoveSub` leaves the registry alone. -/
theorem livenessCheck_after_RemoveSub (env : Env) (topic : String) (w : World)
    (st : LoopState) :
    livenessCheck topic (RemoveSub env topic w).2.client st = livenessCheck topic w.client st := by
  unfold livenessCheck
  rw [RemoveSub_subList]

/-- C7: on the client subscribed to `sensors/temp`, after `RemoveSub("sensors/temp")` has
returned nil, the liveness checks of the delivery loop made on the client as `RemoveSub`
left it still find the topic: the loop stays active and goes on forwarding payloads; in
general a liveness check after `RemoveSub` gives what it gave before. -/
theorem delivery_loop_outlives_RemoveSub :
    (RemoveSub envUp "sensors/temp" wSample).1 = .done none ∧
    (waitSubResponse "sensors/temp"
      [(⟨some msgSample, none⟩, (RemoveSub envUp "sensors/temp" wSample).2.client),
        (⟨some msgSample, none⟩, (RemoveSub envUp "sensors/temp" wSample).2.client)]).status
      = .active ∧
    (waitSubResponse "sensors/temp"
      [(⟨some msgSample, none⟩, (RemoveSub envUp "sensors/temp" wSample).2.client),
        (⟨some msgSample, none⟩, (RemoveSub envUp "sensors/temp" wSample).2.client)]).forwarded
      = ["21.5", "21.5"] ∧
    ∀ (env : Env) (topic : String) (w : World) (st : LoopState),
      livenessCheck topic (RemoveSub env topic w).2.client st =
        livenessCheck topic w.client st := by
  refine ⟨by decide, by decide, by decide, ?_⟩
  intro env topic w st
  exact livenessCheck_after_RemoveSub env topic w st

end CoapPubsub
